import Mathlib

/-!
# coroutine-lib: thread wrapper, counting semaphore, example connection handler

A shallow embedding of

* `1thread/thread.h`   : `Semaphore` (`wait`, `signal`) and the `Thread` class,
* `1thread/thread.cpp` : `Thread::Thread`, `Thread::~Thread`, `Thread::join`, `Thread::run`,
  `Thread::GetThis`, `Thread::GetName`, `Thread::SetName`,
* `6hook/main.cpp`     : the per-connection read handler registered by `test_accept`.

Sequential code is embedded as pure functions that return the new state together with the
list of library calls they made.  The start-up handshake between the constructor and
`Thread::run` is embedded as a two-actor transition system whose runs are the interleavings
of the two threads.
-/

namespace sylar

/-! ## Machine integers -/

/-- A C++ `int` holding the arithmetic result `x`: two's-complement wrap-around to 32 bits. -/
def wrapInt32 (x : Int) : Int := (x + 2147483648) % 4294967296 - 2147483648

/-- Largest value of a C++ `int`. -/
def INT_MAX : Int := 2147483647

/-! ## `class Semaphore` (thread.h 37-73) -/

/-- The data member `int count`; the mutex and the condition variable only serialise the two
member functions, whose locked sections are embedded as atomic functions below. -/
structure Semaphore where
  count : Int
deriving DecidableEq, Repr

/-- One pass through the locked section of `wait()`:
`while (count == 0) cv.wait(lock); count--;`.
With `count == 0` the caller sleeps in `cv.wait` and `wait()` has not returned (`none`);
otherwise the decrement runs and `wait()` returns. A sleeping caller that is woken (by
`notify_one` or spuriously) runs the same test again. -/
def Semaphore.wait (s : Semaphore) : Option Semaphore :=
  if s.count = 0 then none else some { count := wrapInt32 (s.count - 1) }

/-- The locked section of `signal()`: `count++; cv.notify_one();`. -/
def Semaphore.signal (s : Semaphore) : Semaphore :=
  { count := wrapInt32 (s.count + 1) }

/-- The operations threads perform on one semaphore, in the order in which they hold the
mutex: `wait` is one pass of a (new or re-awakened) `wait()` call through its test. -/
inductive SemOp where
  | wait
  | signal
deriving DecidableEq, Repr

/-- A semaphore together with the number of `signal()` and `wait()` calls that have
returned so far. -/
structure SemRun where
  sem : Semaphore
  signals : Nat
  waits : Nat
deriving DecidableEq, Repr

/-- The constructor `Semaphore(count_)`: nothing has been called yet. -/
def SemRun.init (count_ : Int) : SemRun :=
  { sem := { count := count_ }, signals := 0, waits := 0 }

/-- Effect of one operation. A `wait` that finds `count == 0` stays blocked: nothing changes
and no `wait()` call completes. -/
def SemRun.step (r : SemRun) : SemOp → SemRun
  | SemOp.signal => { sem := r.sem.signal, signals := r.signals + 1, waits := r.waits }
  | SemOp.wait =>
    match r.sem.wait with
    | none => r
    | some s => { sem := s, signals := r.signals, waits := r.waits + 1 }

/-- Effect of a sequence of operations. -/
def SemRun.exec (r : SemRun) (ops : List SemOp) : SemRun :=
  ops.foldl SemRun.step r

/-! ## `class Thread` (thread.h 90-152) -/

/-- The exceptions the module throws. -/
inductive Exn where
  | logic_error (what : String)
deriving DecidableEq, Repr

/-- The user callable `std::function<void()>`, abstracted by the arguments of the
`Thread::SetName` calls it makes, in order: `SetName` is the only public operation through
which a callable writes the thread-local name or a `Thread` object's fields. -/
abbrev Callable := List String

/-- Data members of `Thread`. `m_thread` is the `pthread_t` handle, `0` meaning "no thread";
`m_cb` is `none` for an empty `std::function`. -/
structure Thread where
  m_id : Int
  m_thread : Nat
  m_cb : Option Callable
  m_name : String
  m_semaphore : Semaphore
deriving DecidableEq, Repr

/-- The pthread calls made by the module, with the value each one returned. -/
inductive Call where
  | pthread_create (rt : Int)
  | pthread_join (h : Nat) (rt : Int)
  | pthread_detach (h : Nat)
  | pthread_setname_np (name : String)
deriving DecidableEq, Repr

/-- The accessor `Thread::getId` (thread.h 104). -/
def Thread.getId (t : Thread) : Int := t.m_id

/-- The accessor `Thread::getName` (thread.h 106). -/
def Thread.getName (t : Thread) : String := t.m_name

/-- Outcome of a member function: the object afterwards, the exception thrown (if any) and
the pthread calls made. -/
structure Outcome where
  obj : Thread
  exn : Option Exn
  calls : List Call
deriving DecidableEq, Repr

/-- The member `Thread::join` (thread.cpp 132-144); `rt` is what `pthread_join` returns if it
is called. -/
def Thread.join (t : Thread) (rt : Int) : Outcome :=
  if t.m_thread ≠ 0 then
    if rt ≠ 0 then
      { obj := t, exn := some (Exn.logic_error "pthread_join error"),
        calls := [Call.pthread_join t.m_thread rt] }
    else
      { obj := { t with m_thread := 0 }, exn := none,
        calls := [Call.pthread_join t.m_thread rt] }
  else
    { obj := t, exn := none, calls := [] }

/-- The destructor `Thread::~Thread` (thread.cpp 117-128). -/
def Thread.destructor (t : Thread) : Outcome :=
  if t.m_thread ≠ 0 then
    { obj := { t with m_thread := 0 }, exn := none, calls := [Call.pthread_detach t.m_thread] }
  else
    { obj := t, exn := none, calls := [] }

/-- A sequence of `join()` calls on one object; `rts` gives, for each call, what
`pthread_join` returns if that call reaches it. The caller catches what `join()` throws and
goes on. Returns the object afterwards and the pthread calls made. -/
def Thread.joins (t : Thread) : List Int → Thread × List Call
  | [] => (t, [])
  | rt :: rts =>
    let o := t.join rt
    let r := Thread.joins o.obj rts
    (r.1, o.calls ++ r.2)

/-- A sequence of `join()` calls followed by the destructor: all pthread calls made on the
handle during the object's life after construction. -/
def Thread.lifetime (t : Thread) (rts : List Int) : List Call :=
  let r := t.joins rts
  r.2 ++ r.1.destructor.calls

/-! ## Thread-local state and the static accessors (thread.cpp 50-86) -/

/-- The two `thread_local` variables of thread.cpp, for one OS thread; `t_thread` holds the
address of a `Thread` object, `none` being `nullptr`. -/
structure ThreadLocal where
  t_thread : Option Nat
  t_thread_name : String
deriving DecidableEq, Repr

/-- The initialisers `t_thread = nullptr`, `t_thread_name = "UNKNOWN"`. -/
def ThreadLocal.init : ThreadLocal :=
  { t_thread := none, t_thread_name := "UNKNOWN" }

/-- What a running OS thread sees: the `Thread` objects by address, its own thread-locals,
and its kernel thread id (what `syscall(SYS_gettid)` returns to it). -/
structure World where
  heap : Nat → Thread
  tls : ThreadLocal
  tid : Int

/-- The static `Thread::GetThreadId` (thread.cpp 58-61). -/
def GetThreadId (w : World) : Int := w.tid

/-- The static `Thread::GetThis` (thread.cpp 65-68). -/
def GetThis (w : World) : Option Nat := w.tls.t_thread

/-- The static `Thread::GetName` (thread.cpp 71-74). -/
def GetName (w : World) : String := w.tls.t_thread_name

/-- The static `Thread::SetName` (thread.cpp 79-86). -/
def SetName (w : World) (name : String) : World :=
  let heap1 : Nat → Thread :=
    match w.tls.t_thread with
    | some a => Function.update w.heap a { w.heap a with m_name := name }
    | none => w.heap
  { heap := heap1, tls := { w.tls with t_thread_name := name }, tid := w.tid }

/-- The operations of the static interface a thread can call. -/
inductive StaticOp where
  | GetThreadId
  | GetThis
  | GetName
  | SetName (name : String)
deriving DecidableEq, Repr

/-- Effect of one static operation on the caller's world (the getters only read). -/
def World.apply (w : World) : StaticOp → World
  | StaticOp.SetName n => SetName w n
  | _ => w

/-- Effect of a sequence of static operations. -/
def World.applyAll (w : World) (ops : List StaticOp) : World :=
  ops.foldl World.apply w

/-! ## Start-up handshake: `Thread::Thread` (thread.cpp 95-112) against `Thread::run` (152-174) -/

/-- What the caller and the operating system supply to one construction `Thread(cb, name)`:
the address of the object, the two arguments, the value `pthread_create` returns, the handle
it stores on success, and the kernel id of the new thread. -/
structure Env where
  self : Nat
  cb : Option Callable
  name : String
  rt : Int
  handle : Nat
  tid : Int

/-- Where the creating thread stands inside the constructor. -/
inductive CreatorPc where
  | create
  | semWait
  | semTest
  | semSleep
  | returned
  | thrown (e : Exn)
deriving DecidableEq, Repr

/-- Where the new thread stands inside `Thread::run`; `callCb k` is inside `cb()` after `k`
of the callable's `SetName` calls; `aborted` is `std::terminate` after calling an empty
`std::function`. -/
inductive ChildPc where
  | notStarted
  | bindThis
  | bindName
  | setId
  | setOsName
  | swapCb
  | signal
  | callCb (k : Nat)
  | finished
  | aborted
deriving DecidableEq, Repr

/-- The two threads of the handshake. -/
inductive Actor where
  | creator
  | child
deriving DecidableEq, Repr

/-- State of the handshake: both program counters, the memory seen by the new thread (the
heap is shared with the creator, the thread-locals are the new thread's), the local variable
`cb` of `run`, the pthread calls made so far and the number of calls of
`m_semaphore.wait()` / `m_semaphore.signal()` entered so far. -/
structure Sys where
  creator : CreatorPc
  child : ChildPc
  w : World
  cb : Option Callable
  calls : List Call
  waitCalls : Nat
  signalCalls : Nat

/-- The object under construction. -/
def Sys.obj (env : Env) (s : Sys) : Thread := s.w.heap env.self

/-- Store into the object under construction. -/
def Sys.setObj (env : Env) (s : Sys) (t : Thread) : World :=
  { heap := Function.update s.w.heap env.self t, tls := s.w.tls, tid := s.w.tid }

/-- State on entry to the constructor body: the member initialisers have run
(`m_id = -1`, `m_thread = 0`, `m_cb(cb)`, `m_name(name)`, `Semaphore(0)`), the new thread
does not exist yet, and its thread-locals will start from their initialisers. -/
def Sys.init (env : Env) (heap : Nat → Thread) : Sys :=
  { creator := CreatorPc.create
    child := ChildPc.notStarted
    w := { heap := Function.update heap env.self
             { m_id := -1, m_thread := 0, m_cb := env.cb, m_name := env.name,
               m_semaphore := { count := 0 } }
           tls := ThreadLocal.init
           tid := env.tid }
    cb := none
    calls := []
    waitCalls := 0
    signalCalls := 0 }

/-- One step of the creating thread, `none` when it has none (constructor left, or process
terminated). -/
def Sys.stepCreator (env : Env) (s : Sys) : Option Sys :=
  if s.child = ChildPc.aborted then none else
  match s.creator with
  | CreatorPc.create =>
    -- int rt = pthread_create(&m_thread, nullptr, &Thread::run, this); if (rt) throw ...
    if env.rt ≠ 0 then
      some { s with creator := CreatorPc.thrown (Exn.logic_error "pthread_create error")
                    calls := s.calls ++ [Call.pthread_create env.rt] }
    else
      some { s with creator := CreatorPc.semWait
                    child := ChildPc.bindThis
                    w := s.setObj env { s.obj env with m_thread := env.handle }
                    calls := s.calls ++ [Call.pthread_create env.rt] }
  | CreatorPc.semWait =>
    -- m_semaphore.wait(): take the mutex
    some { s with creator := CreatorPc.semTest, waitCalls := s.waitCalls + 1 }
  | CreatorPc.semTest =>
    -- while (count == 0) cv.wait(lock); count--;
    match (s.obj env).m_semaphore.wait with
    | none => some { s with creator := CreatorPc.semSleep }
    | some sem =>
      some { s with creator := CreatorPc.returned
                    w := s.setObj env { s.obj env with m_semaphore := sem } }
  | CreatorPc.semSleep =>
    -- woken inside cv.wait (notify_one or spurious): back to the loop test
    some { s with creator := CreatorPc.semTest }
  | CreatorPc.returned => none
  | CreatorPc.thrown _ => none

/-- One step of the new thread, `none` when it has none. -/
def Sys.stepChild (env : Env) (s : Sys) : Option Sys :=
  match s.child with
  | ChildPc.notStarted => none
  | ChildPc.bindThis =>
    -- t_thread = thread;
    some { s with child := ChildPc.bindName
                  w := { s.w with tls := { s.w.tls with t_thread := some env.self } } }
  | ChildPc.bindName =>
    -- t_thread_name = thread->m_name;
    some { s with child := ChildPc.setId
                  w := { s.w with tls := { s.w.tls with t_thread_name := (s.obj env).m_name } } }
  | ChildPc.setId =>
    -- thread->m_id = GetThreadId();
    some { s with child := ChildPc.setOsName
                  w := s.setObj env { s.obj env with m_id := GetThreadId s.w } }
  | ChildPc.setOsName =>
    -- pthread_setname_np(pthread_self(), thread->m_name.substr(0, 15).c_str());
    some { s with child := ChildPc.swapCb
                  calls := s.calls ++
                    [Call.pthread_setname_np (String.mk ((s.obj env).m_name.data.take 15))] }
  | ChildPc.swapCb =>
    -- std::function<void()> cb; cb.swap(thread->m_cb);
    some { s with child := ChildPc.signal
                  cb := (s.obj env).m_cb
                  w := s.setObj env { s.obj env with m_cb := none } }
  | ChildPc.signal =>
    -- thread->m_semaphore.signal();
    some { s with child := ChildPc.callCb 0
                  w := s.setObj env
                    { s.obj env with m_semaphore := (s.obj env).m_semaphore.signal }
                  signalCalls := s.signalCalls + 1 }
  | ChildPc.callCb k =>
    -- cb();
    match s.cb with
    | none => some { s with child := ChildPc.aborted }
    | some names =>
      match names.get? k with
      | some n => some { s with child := ChildPc.callCb (k + 1), w := SetName s.w n }
      | none => some { s with child := ChildPc.finished }
  | ChildPc.finished => none
  | ChildPc.aborted => none

/-- One step of the chosen thread; a thread without a step leaves the state as it is. -/
def Sys.next (env : Env) (s : Sys) : Actor → Sys
  | Actor.creator => (s.stepCreator env).getD s
  | Actor.child => (s.stepChild env).getD s

/-- The state after the interleaving `sched`. -/
def Sys.exec (env : Env) (s : Sys) (sched : List Actor) : Sys :=
  sched.foldl (Sys.next env) s

/-- The names the callable has passed to `SetName` once the new thread is at `pc`. -/
def namesSet (cb : Option Callable) : ChildPc → List String
  | ChildPc.callCb k => (cb.getD []).take k
  | ChildPc.finished => cb.getD []
  | ChildPc.aborted => []
  | _ => []

/-! ## Auxiliary definitions used to state the properties -/

/-- A call that releases a thread handle: a `pthread_join` that returned `0`, or a
`pthread_detach`. -/
def Call.releases : Call → Bool
  | Call.pthread_join _ rt => decide (rt = 0)
  | Call.pthread_detach _ => true
  | _ => false

/-- An object as `main` of test.cpp holds it after construction: handle 7, kernel id 100. -/
def exampleThread : Thread :=
  { m_id := 100, m_thread := 7, m_cb := none, m_name := "thread_0",
    m_semaphore := { count := 0 } }

/-- How far the new thread has got: one more for each statement of `run` executed. -/
def ChildPc.rank : ChildPc → Nat
  | ChildPc.notStarted => 0
  | ChildPc.bindThis => 1
  | ChildPc.bindName => 2
  | ChildPc.setId => 3
  | ChildPc.setOsName => 4
  | ChildPc.swapCb => 5
  | ChildPc.signal => 6
  | ChildPc.callCb _ => 7
  | ChildPc.finished => 7
  | ChildPc.aborted => 7

/-- The creating thread is inside or past `m_semaphore.wait()`. -/
def CreatorPc.inWait : CreatorPc → Bool
  | CreatorPc.semTest => true
  | CreatorPc.semSleep => true
  | CreatorPc.returned => true
  | _ => false

/-- The creating thread is past a successful `pthread_create`. -/
def CreatorPc.created : CreatorPc → Bool
  | CreatorPc.create => false
  | CreatorPc.thrown _ => false
  | _ => true

/-- The current name: the last name passed to `SetName`, else the constructor's argument. -/
def currentName (env : Env) (pc : ChildPc) : String :=
  (namesSet env.cb pc).getLast?.getD env.name

/-- A call of `pthread_create`. -/
def Call.isCreate : Call → Bool
  | Call.pthread_create _ => true
  | _ => false

/-- Number of `pthread_create` calls made so far. -/
def Sys.createCalls (s : Sys) : Nat := (s.calls.filter Call.isCreate).length

/-- Every reachable state of the handshake is determined by the two program counters. -/
structure Inv (env : Env) (s : Sys) : Prop where
  tid : s.w.tid = env.tid
  t_thread : s.w.tls.t_thread = if 2 ≤ s.child.rank then some env.self else none
  t_name : s.w.tls.t_thread_name =
    if 3 ≤ s.child.rank then currentName env s.child else "UNKNOWN"
  m_name : (s.obj env).m_name = currentName env s.child
  m_id : (s.obj env).m_id = if 4 ≤ s.child.rank then env.tid else -1
  m_cb : (s.obj env).m_cb = if 6 ≤ s.child.rank then none else env.cb
  cb : s.cb = if 6 ≤ s.child.rank then env.cb else none
  count : (s.obj env).m_semaphore.count =
    (if 7 ≤ s.child.rank then 1 else 0) - (if s.creator = CreatorPc.returned then 1 else 0)
  returned : s.creator = CreatorPc.returned → 7 ≤ s.child.rank
  signalCalls : s.signalCalls = if 7 ≤ s.child.rank then 1 else 0
  waitCalls : s.waitCalls = if s.creator.inWait then 1 else 0
  m_thread : (s.obj env).m_thread = if s.creator.created then env.handle else 0
  calls : s.calls =
    (if s.creator = CreatorPc.create then [] else [Call.pthread_create env.rt]) ++
    (if 5 ≤ s.child.rank then [Call.pthread_setname_np (String.mk (env.name.data.take 15))]
     else [])
  notCreated : s.creator.created = false → s.child = ChildPc.notStarted
  created : s.creator.created = true → env.rt = 0 ∧ s.child ≠ ChildPc.notStarted
  thrown : ∀ e, s.creator = CreatorPc.thrown e →
    e = Exn.logic_error "pthread_create error" ∧ env.rt ≠ 0
  inCb : ∀ k, s.child = ChildPc.callCb k → k ≤ (env.cb.getD []).length
  finished : s.child = ChildPc.finished → env.cb.isSome
  aborted : s.child = ChildPc.aborted → env.cb = none

/-- The world of a thread created through `Thread`, bound to the object at address 4096. -/
def boundWorld : World :=
  { heap := fun _ => exampleThread
    tls := { t_thread := some 4096, t_thread_name := "thread_0" }
    tid := 100 }

/-- The world of a thread not created through `Thread` (such as the main thread). -/
def unboundWorld : World :=
  { heap := fun _ => exampleThread, tls := ThreadLocal.init, tid := 99 }

/-- A construction `Thread(cb, "thread_0")` whose callable renames its thread to "worker". -/
def renamingEnv : Env :=
  { self := 4096, cb := some ["worker"], name := "thread_0", rt := 0, handle := 7, tid := 100 }

/-- A construction with a name longer than the 15 bytes the kernel keeps. -/
def longNameEnv : Env :=
  { self := 4096, cb := some [], name := "connection_worker_thread_0", rt := 0, handle := 7,
    tid := 100 }

/-- A construction for which `pthread_create` fails with code 11. -/
def failingEnv : Env :=
  { self := 4096, cb := some [], name := "thread_0", rt := 11, handle := 0, tid := 0 }

/-- A heap whose cells hold no live `Thread`. -/
def blankHeap : Nat → Thread := fun _ =>
  { m_id := -1, m_thread := 0, m_cb := none, m_name := "", m_semaphore := { count := 0 } }

/-- The new thread runs `run` up to and including the callable's first `SetName` before the
creator enters `wait()`. -/
def childFirst : List Actor :=
  [Actor.creator, Actor.child, Actor.child, Actor.child, Actor.child, Actor.child,
   Actor.child, Actor.child, Actor.creator, Actor.creator]

/-- The creator enters `wait()` first, sleeps, is woken spuriously, sleeps again, and
returns after the new thread has signalled. -/
def creatorFirst : List Actor :=
  [Actor.creator, Actor.creator, Actor.creator, Actor.child, Actor.creator, Actor.creator,
   Actor.child, Actor.child, Actor.child, Actor.child, Actor.child,
   Actor.creator, Actor.creator]

end sylar

/-! ## The per-connection read handler of `test_accept` (6hook/main.cpp 44-96) -/

namespace test_accept

/-- The errno value `EAGAIN` of `<errno.h>` on Linux. -/
def EAGAIN : Int := 11

/-- What one `recv(fd, buffer, sizeof(buffer), 0)` call gives back: the return value, the
bytes it stored into `buffer` (`ret` of them when `ret > 0`), and `errno` after the call. -/
structure RecvResult where
  ret : Int
  data : List Char
  errno : Int
deriving DecidableEq, Repr

/-- The socket calls of the handler with their arguments (`buf`, `len` for `send`). -/
inductive SysCall where
  | recv (fd : Int) (len : Nat)
  | send (fd : Int) (buf : List Char) (len : Nat)
  | close (fd : Int)
deriving DecidableEq, Repr

/-- The string literal `response` (main.cpp 64-69). -/
def response : List Char :=
  "HTTP/1.1 200 OK".data ++ [Char.ofNat 13, Char.ofNat 10] ++
  "Content-Type: text/plain".data ++ [Char.ofNat 13, Char.ofNat 10] ++
  "Content-Length: 13".data ++ [Char.ofNat 13, Char.ofNat 10] ++
  "Connection: keep-alive".data ++ [Char.ofNat 13, Char.ofNat 10] ++
  [Char.ofNat 13, Char.ofNat 10] ++
  "1".data

/-- The C function `strlen`: the number of bytes before the first NUL. -/
def strlen (s : List Char) : Nat := (s.takeWhile (fun c => c ≠ Char.ofNat 0)).length

/-- The value of `sizeof(buffer)` for `char buffer[1024]`. -/
def bufferSize : Nat := 1024

/-- The calls made so far and whether the handler has returned. -/
structure HandlerRun where
  calls : List SysCall
  returned : Bool
deriving DecidableEq, Repr

/-- The `while (true)` loop of the handler: `recv i` is the result of the `i`-th `recv` call
(counting from `0`), `fuel` bounds the number of iterations executed, `calls` are the calls
made before this iteration. When the fuel runs out the handler is still inside the loop. -/
def readLoop (fd : Int) (recv : Nat → RecvResult) : Nat → Nat → List SysCall → HandlerRun
  | 0, _, calls => { calls := calls, returned := false }
  | fuel + 1, i, calls =>
    let r := recv i
    let calls1 := calls ++ [SysCall.recv fd bufferSize]
    if r.ret > 0 then
      -- ret = send(fd, response, strlen(response), 0); close(fd); break;
      { calls := calls1 ++ [SysCall.send fd response (strlen response), SysCall.close fd],
        returned := true }
    else if r.ret ≤ 0 then
      if r.ret = 0 ∨ r.errno ≠ EAGAIN then
        -- close(fd); break;
        { calls := calls1 ++ [SysCall.close fd], returned := true }
      else if r.errno = EAGAIN then
        readLoop fd recv fuel (i + 1) calls1
      else
        readLoop fd recv fuel (i + 1) calls1
    else
      readLoop fd recv fuel (i + 1) calls1

/-- The handler `[fd]() \x7b ... \x7d` run for at most `fuel` loop iterations. -/
def readHandler (fd : Int) (recv : Nat → RecvResult) (fuel : Nat) : HandlerRun :=
  readLoop fd recv fuel 0 []

/-- The result `(-1, EAGAIN)`: nothing to read yet. -/
def RecvResult.isAgain (r : RecvResult) : Prop := r.ret = -1 ∧ r.errno = EAGAIN

instance (r : RecvResult) : Decidable r.isAgain := by
  unfold RecvResult.isAgain; infer_instance

/-- The results `recv` can give: a positive length, `0`, or `-1`. -/
def RecvResult.wellFormed (r : RecvResult) : Prop := -1 ≤ r.ret

instance (r : RecvResult) : Decidable r.wellFormed := by
  unfold RecvResult.wellFormed; infer_instance

/-- Number of `send` calls in a list of calls. -/
def sends (cs : List SysCall) : Nat :=
  (cs.filter (fun c => match c with | SysCall.send _ _ _ => true | _ => false)).length

/-- Number of `close` calls in a list of calls. -/
def closes (cs : List SysCall) : Nat :=
  (cs.filter (fun c => match c with | SysCall.close _ => true | _ => false)).length

/-! ## Auxiliary definitions used to state the properties -/

/-- The `recv` call the handler issues. -/
def recvCall (fd : Int) : SysCall := SysCall.recv fd bufferSize

/-- The calls that follow the `recv` whose result `r` ends the loop. -/
def finalCalls (fd : Int) (r : RecvResult) : List SysCall :=
  if r.ret > 0 then [SysCall.send fd response (strlen response), SysCall.close fd]
  else [SysCall.close fd]

/-- A connection on descriptor 5 whose first `recv` delivers the 4 bytes "ping". -/
def pingRecv : Nat → RecvResult :=
  fun _ => { ret := 4, data := "ping".data, errno := 0 }

/-- A connection on which the first `recv` gives `(-1, EAGAIN)` and the second delivers the
4 bytes "ping". -/
def againThenPing : Nat → RecvResult
  | 0 => { ret := -1, data := [], errno := EAGAIN }
  | _ => { ret := 4, data := "ping".data, errno := 0 }

end test_accept

/-! # Theorems -/

namespace sylar

/-! ## `Semaphore` -/

theorem wrapInt32_of_range (x : Int) (lo : -2147483648 ≤ x) (hi : x ≤ 2147483647) :
    wrapInt32 x = x := by
  unfold wrapInt32
  omega

theorem SemRun.exec_nil (r : SemRun) : r.exec [] = r := rfl

theorem SemRun.exec_cons (r : SemRun) (op : SemOp) (ops : List SemOp) :
    r.exec (op :: ops) = (r.step op).exec ops := rfl

theorem SemRun.step_signal_of_range (r : SemRun) (h0 : 0 ≤ r.sem.count)
    (h1 : r.sem.count < INT_MAX) :
    r.step SemOp.signal =
      { sem := { count := r.sem.count + 1 }, signals := r.signals + 1, waits := r.waits } := by
  unfold INT_MAX at h1
  simp only [SemRun.step, Semaphore.signal]
  rw [wrapInt32_of_range _ (by omega) (by omega)]

theorem SemRun.step_wait_of_pos (r : SemRun) (h0 : 0 < r.sem.count)
    (h1 : r.sem.count ≤ INT_MAX) :
    r.step SemOp.wait =
      { sem := { count := r.sem.count - 1 }, signals := r.signals, waits := r.waits + 1 } := by
  unfold INT_MAX at h1
  have hne : r.sem.count ≠ 0 := by omega
  simp only [SemRun.step, Semaphore.wait, hne, if_false]
  rw [wrapInt32_of_range _ (by omega) (by omega)]

theorem SemRun.step_wait_of_zero (r : SemRun) (h0 : r.sem.count = 0) :
    r.step SemOp.wait = r := by
  simp [SemRun.step, Semaphore.wait, h0]

theorem SemRun.exec_waits_of_zero (r : SemRun) (h0 : r.sem.count = 0) (k : Nat) :
    r.exec (List.replicate k SemOp.wait) = r := by
  induction k with
  | zero => rfl
  | succ k ih =>
    rw [List.replicate_succ, SemRun.exec_cons, SemRun.step_wait_of_zero r h0]
    exact ih

/-- The counting invariant carried along a run that starts in any state with a non-negative
count and never takes the count past `INT_MAX`. -/
theorem SemRun.exec_invariant (ops : List SemOp) (r : SemRun) (h0 : 0 ≤ r.sem.count)
    (hmax : r.sem.count + (ops.count SemOp.signal : Int) ≤ INT_MAX) :
    (r.exec ops).sem.count + ((r.exec ops).waits : Int) + (r.signals : Int) =
        r.sem.count + ((r.exec ops).signals : Int) + (r.waits : Int) ∧
    0 ≤ (r.exec ops).sem.count ∧
    (r.exec ops).signals = r.signals + ops.count SemOp.signal ∧
    (r.exec ops).sem.count ≤ r.sem.count + (ops.count SemOp.signal : Int) := by
  induction ops generalizing r with
  | nil =>
    simp only [SemRun.exec_nil, List.count_nil, Nat.cast_zero, add_zero]
    exact ⟨by omega, h0, trivial, le_refl _⟩
  | cons op ops ih =>
    rw [SemRun.exec_cons]
    cases op with
    | signal =>
      have hc : ((SemOp.signal :: ops).count SemOp.signal : Int)
          = (ops.count SemOp.signal : Int) + 1 := by simp
      rw [hc] at hmax
      have hlt : r.sem.count < INT_MAX := by
        have : (0 : Int) ≤ (ops.count SemOp.signal : Int) := Int.ofNat_nonneg _
        omega
      rw [SemRun.step_signal_of_range r h0 hlt]
      have := ih { sem := { count := r.sem.count + 1 }, signals := r.signals + 1,
                   waits := r.waits } (by simp; omega) (by simp; omega)
      simp only [List.count_cons_self] at *
      obtain ⟨a, b, c, d⟩ := this
      refine ⟨?_, b, ?_, ?_⟩
      · rw [c] at a ⊢; push_cast at a ⊢; omega
      · omega
      · push_cast; omega
    | wait =>
      have hc : (SemOp.wait :: ops).count SemOp.signal = ops.count SemOp.signal := by
        simp
      rw [hc] at hmax ⊢
      by_cases hz : r.sem.count = 0
      · rw [SemRun.step_wait_of_zero r hz]
        exact ih r h0 hmax
      · have hpos : 0 < r.sem.count := by omega
        have hle : r.sem.count ≤ INT_MAX := by
          have : (0 : Int) ≤ (ops.count SemOp.signal : Int) := Int.ofNat_nonneg _
          omega
        rw [SemRun.step_wait_of_pos r hpos hle]
        have := ih { sem := { count := r.sem.count - 1 }, signals := r.signals,
                     waits := r.waits + 1 } (by simp; omega) (by simp; omega)
        obtain ⟨a, b, c, d⟩ := this
        refine ⟨?_, b, c, ?_⟩
        · simp only at a ⊢; push_cast at a ⊢; omega
        · simp only at d ⊢; omega

/-- C2 (as stated, refuted): a semaphore constructed with the `int` value `2147483647` and
signalled once does not hold `n + 1`: the 32-bit count wraps to `-2147483648`, which is
negative and differs from `n + signals - waits`. -/
theorem semaphore_count_overflows :
    ((SemRun.init 2147483647).exec [SemOp.signal]).sem.count = -2147483648 ∧
    ¬ (((SemRun.init 2147483647).exec [SemOp.signal]).sem.count =
        2147483647 + (((SemRun.init 2147483647).exec [SemOp.signal]).signals : Int)
          - (((SemRun.init 2147483647).exec [SemOp.signal]).waits : Int) ∧
       0 ≤ ((SemRun.init 2147483647).exec [SemOp.signal]).sem.count) := by
  decide

/-- C2 (amended): for a semaphore constructed with `n ≥ 0` and any sequence of `wait` and
`signal` operations during which `n` plus the number of signals stays within `INT_MAX`, the
count equals `n + signals completed - waits completed` and is not negative; in the state
reached, a `wait()` on `count == 0` stays blocked however often it re-tests, a `wait()`
completes exactly when `count > 0` and then lowers the count by exactly `1`, and (below
`INT_MAX`) a `signal()` raises the count by exactly `1`. -/
theorem semaphore_invariant (n : Int) (ops : List SemOp) (hn : 0 ≤ n)
    (hmax : n + (ops.count SemOp.signal : Int) ≤ INT_MAX) :
    ((SemRun.init n).exec ops).sem.count =
        n + (((SemRun.init n).exec ops).signals : Int)
          - (((SemRun.init n).exec ops).waits : Int) ∧
    0 ≤ ((SemRun.init n).exec ops).sem.count ∧
    ((SemRun.init n).exec ops).signals = ops.count SemOp.signal ∧
    (((SemRun.init n).exec ops).sem.count = 0 →
        ∀ k, ((SemRun.init n).exec ops).exec (List.replicate k SemOp.wait)
          = (SemRun.init n).exec ops) ∧
    ((((SemRun.init n).exec ops).step SemOp.wait).waits
        = ((SemRun.init n).exec ops).waits + 1 ↔
      0 < ((SemRun.init n).exec ops).sem.count) ∧
    (0 < ((SemRun.init n).exec ops).sem.count →
        (((SemRun.init n).exec ops).step SemOp.wait).sem.count
          = ((SemRun.init n).exec ops).sem.count - 1) ∧
    (((SemRun.init n).exec ops).sem.count < INT_MAX →
        (((SemRun.init n).exec ops).step SemOp.signal).sem.count
          = ((SemRun.init n).exec ops).sem.count + 1 ∧
        (((SemRun.init n).exec ops).step SemOp.signal).signals
          = ((SemRun.init n).exec ops).signals + 1) := by
  obtain ⟨a, b, c, d⟩ := SemRun.exec_invariant ops (SemRun.init n) hn hmax
  generalize (SemRun.init n).exec ops = r at a b c d ⊢
  have hle : r.sem.count ≤ INT_MAX := le_trans d hmax
  simp only [SemRun.init, Nat.cast_zero, add_zero, Nat.zero_add] at a c
  refine ⟨by omega, b, c, ?_, ?_, ?_, ?_⟩
  · intro hz k
    exact SemRun.exec_waits_of_zero r hz k
  · constructor
    · intro hw
      by_contra hnp
      have hz : r.sem.count = 0 := by omega
      rw [SemRun.step_wait_of_zero r hz] at hw
      omega
    · intro hpos
      rw [SemRun.step_wait_of_pos r hpos hle]
  · intro hpos
    rw [SemRun.step_wait_of_pos r hpos hle]
  · intro hlt
    rw [SemRun.step_signal_of_range r b hlt]
    exact ⟨rfl, rfl⟩

/-- C2 (amended), evaluated: from `Semaphore(1)`, the run wait, wait, signal, wait, signal
ends with count `1`, two signals and two waits completed (the second `wait` blocked). -/
theorem semaphore_invariant_witness :
    (0 : Int) ≤ 1 ∧
    (SemRun.init 1).exec [SemOp.wait, SemOp.wait, SemOp.signal, SemOp.wait, SemOp.signal]
      = { sem := { count := 1 }, signals := 2, waits := 2 } ∧
    ((SemRun.init 1).exec
        [SemOp.wait, SemOp.wait, SemOp.signal, SemOp.wait, SemOp.signal]).sem.count =
      1 + (((SemRun.init 1).exec
        [SemOp.wait, SemOp.wait, SemOp.signal, SemOp.wait, SemOp.signal]).signals : Int)
        - (((SemRun.init 1).exec
        [SemOp.wait, SemOp.wait, SemOp.signal, SemOp.wait, SemOp.signal]).waits : Int) :=
  ⟨by decide, by decide,
   (semaphore_invariant 1 [SemOp.wait, SemOp.wait, SemOp.signal, SemOp.wait, SemOp.signal]
      (by decide) (by decide)).1⟩

/-! ## `Thread::join` and `Thread::~Thread` -/

theorem joins_of_no_handle (t : Thread) (rts : List Int) (h : t.m_thread = 0) :
    t.joins rts = (t, []) := by
  induction rts with
  | nil => rfl
  | cons rt rts ih => simp [Thread.joins, Thread.join, h, ih]

theorem joins_of_handle (t : Thread) (rts : List Int) (h : t.m_thread ≠ 0) :
    t.joins rts =
      (if (0 : Int) ∈ rts then { t with m_thread := 0 } else t,
       (rts.takeWhile (fun rt => decide (rt ≠ 0))).map (Call.pthread_join t.m_thread) ++
         (if (0 : Int) ∈ rts then [Call.pthread_join t.m_thread 0] else [])) := by
  induction rts with
  | nil => simp [Thread.joins]
  | cons rt rts ih =>
    by_cases hrt : rt = 0
    · subst hrt
      simp [Thread.joins, Thread.join, h, joins_of_no_handle]
    · have hne : ¬ (0 : Int) = rt := fun e => hrt e.symm
      simp [Thread.joins, Thread.join, h, hrt, hne, ih, List.takeWhile_cons]

theorem lifetime_eq (t : Thread) (rts : List Int) (h : t.m_thread ≠ 0) :
    t.lifetime rts =
      (rts.takeWhile (fun rt => decide (rt ≠ 0))).map (Call.pthread_join t.m_thread) ++
        (if (0 : Int) ∈ rts then [Call.pthread_join t.m_thread 0]
         else [Call.pthread_detach t.m_thread]) := by
  unfold Thread.lifetime
  rw [joins_of_handle t rts h]
  by_cases h0 : (0 : Int) ∈ rts
  · simp [h0, Thread.destructor]
  · simp [h0, Thread.destructor, h]

theorem failed_joins_no_success (h : Nat) (rts : List Int) :
    Call.pthread_join h 0 ∉
      (rts.takeWhile (fun rt => decide (rt ≠ 0))).map (Call.pthread_join h) := by
  intro hc
  rw [List.mem_map] at hc
  obtain ⟨rt, hrt, heq⟩ := hc
  have h1 := List.mem_takeWhile_imp hrt
  have h2 : rt = 0 := by injection heq
  simp [h2] at h1

theorem failed_joins_no_detach (h : Nat) (rts : List Int) :
    Call.pthread_detach h ∉
      (rts.takeWhile (fun rt => decide (rt ≠ 0))).map (Call.pthread_join h) := by
  intro hc
  rw [List.mem_map] at hc
  obtain ⟨rt, _, heq⟩ := hc
  cases heq

theorem last_occurrence_tail {α : Type} (a : α) (l pre post : List α) (ha : a ∉ l)
    (h : l ++ [a] = pre ++ a :: post) : post = [] := by
  induction l generalizing pre with
  | nil =>
    cases pre with
    | nil => simpa using h.symm
    | cons y pre1 =>
      have hl := congrArg List.length h
      simp at hl
  | cons x l ih =>
    cases pre with
    | nil =>
      simp at h
      exact absurd h.1 (fun e => ha (by simp [e]))
    | cons y pre1 =>
      simp at h
      exact ih pre1 (fun hm => ha (List.mem_cons_of_mem _ hm)) h.2

theorem failed_joins_release_nothing (h : Nat) (rts : List Int) :
    (((rts.takeWhile (fun rt => decide (rt ≠ 0))).map (Call.pthread_join h)).filter
      Call.releases) = [] := by
  rw [List.filter_eq_nil_iff]
  intro c hc
  rw [List.mem_map] at hc
  obtain ⟨rt, hrt, rfl⟩ := hc
  have := List.mem_takeWhile_imp hrt
  simpa [Call.releases] using this

/-- C5: `join()` throws `std::logic_error` exactly when the stored handle is non-zero and
`pthread_join` returns non-zero; when it throws the object (so `m_thread`) is unchanged; when
the handle is non-zero and `pthread_join` returns `0`, `m_thread` becomes `0` and nothing is
thrown; when `m_thread` is already `0`, `join()` makes no pthread call, throws nothing and
leaves the object unchanged. -/
theorem join_contract (t : Thread) (rt : Int) :
    ((t.join rt).exn = some (Exn.logic_error "pthread_join error") ↔
        (t.m_thread ≠ 0 ∧ rt ≠ 0)) ∧
    ((t.join rt).exn = none ↔ ¬ (t.m_thread ≠ 0 ∧ rt ≠ 0)) ∧
    ((t.join rt).exn ≠ none → (t.join rt).obj = t) ∧
    (t.m_thread ≠ 0 →
        (t.join rt).calls = [Call.pthread_join t.m_thread rt] ∧
        (rt = 0 → (t.join rt).obj.m_thread = 0 ∧ (t.join rt).exn = none)) ∧
    (t.m_thread = 0 →
        (t.join rt).calls = [] ∧ (t.join rt).exn = none ∧ (t.join rt).obj = t) := by
  by_cases h : t.m_thread = 0 <;> by_cases hrt : rt = 0 <;> simp [Thread.join, h, hrt]

/-- C5, evaluated: a failing `pthread_join` (code 3) on handle 7 throws and keeps the handle;
a succeeding one clears it; a second `join()` does nothing. -/
theorem join_contract_witness :
    (exampleThread.join 3).exn = some (Exn.logic_error "pthread_join error") ∧
    (exampleThread.join 3).obj.m_thread = 7 ∧
    (exampleThread.join 0).exn = none ∧ (exampleThread.join 0).obj.m_thread = 0 ∧
    (exampleThread.join 0).calls = [Call.pthread_join 7 0] ∧
    ((exampleThread.join 0).obj.join 0).calls = [] ∧
    ((exampleThread.join 0).obj.join 3).exn = none := by
  have h := join_contract exampleThread 3
  refine ⟨h.1.2 ⟨by decide, by decide⟩, ?_, ?_, ?_, ?_, ?_, ?_⟩ <;> decide

/-- C4: for an object holding a thread handle (`m_thread ≠ 0`, as after a successful
construction), any sequence of `join()` calls followed by the destructor makes exactly one
releasing call (a successful `pthread_join` or a `pthread_detach`); nothing at all is called
after a `pthread_join` that succeeded, so no later `join()` reaches `pthread_join`; and the
destructor calls `pthread_detach` exactly when no `pthread_join` succeeded before it. -/
theorem handle_released_exactly_once (t : Thread) (rts : List Int) (h : t.m_thread ≠ 0) :
    ((t.lifetime rts).filter Call.releases).length = 1 ∧
    (∀ pre post, (t.joins rts).2 = pre ++ Call.pthread_join t.m_thread 0 :: post →
        post = []) ∧
    ((t.joins rts).1.destructor.calls = [Call.pthread_detach t.m_thread] ↔
        Call.pthread_join t.m_thread 0 ∉ (t.joins rts).2) ∧
    ((t.joins rts).1.destructor.calls = [] ↔
        Call.pthread_join t.m_thread 0 ∈ (t.joins rts).2) ∧
    ¬ (Call.pthread_join t.m_thread 0 ∈ t.lifetime rts ∧
        Call.pthread_detach t.m_thread ∈ t.lifetime rts) ∧
    (Call.pthread_join t.m_thread 0 ∈ t.lifetime rts ∨
        Call.pthread_detach t.m_thread ∈ t.lifetime rts) := by
  have hns := failed_joins_no_success t.m_thread rts
  have hnd := failed_joins_no_detach t.m_thread rts
  have hrel := failed_joins_release_nothing t.m_thread rts
  rw [lifetime_eq t rts h, joins_of_handle t rts h]
  generalize (rts.takeWhile (fun rt => decide (rt ≠ 0))).map (Call.pthread_join t.m_thread)
    = fj at hns hnd hrel ⊢
  by_cases h0 : (0 : Int) ∈ rts
  · simp only [h0, if_true]
    refine ⟨?_, ?_, ?_, ?_, ?_, ?_⟩
    · simp [List.filter_append, hrel, Call.releases]
    · intro pre post hpp
      exact last_occurrence_tail _ _ pre post hns hpp
    · simp [Thread.destructor]
    · simp [Thread.destructor]
    · simp [hnd]
    · simp
  · simp only [h0, if_false]
    refine ⟨?_, ?_, ?_, ?_, ?_, ?_⟩
    · simp [List.filter_append, hrel, Call.releases]
    · intro pre post hpp
      exfalso
      apply hns
      simp only [List.append_nil] at hpp
      rw [hpp]
      simp
    · simp [Thread.destructor, h, hns]
    · simp [Thread.destructor, h, hns]
    · simp [hns]
    · simp

/-- C4, evaluated on handle 7: a failed join, a successful join and a further `join()` give
one failed and one successful `pthread_join` and no detach; a single failed join is followed
by the destructor's `pthread_detach`. -/
theorem handle_released_exactly_once_witness :
    exampleThread.m_thread ≠ 0 ∧
    exampleThread.lifetime [3, 0, 0] = [Call.pthread_join 7 3, Call.pthread_join 7 0] ∧
    exampleThread.lifetime [3] = [Call.pthread_join 7 3, Call.pthread_detach 7] ∧
    ((exampleThread.lifetime [3, 0, 0]).filter Call.releases).length = 1 :=
  ⟨by decide, by decide, by decide,
   (handle_released_exactly_once exampleThread [3, 0, 0] (by decide)).1⟩

/-! ## `Thread::SetName`, `Thread::GetName`, `Thread::GetThis` -/

theorem applyAll_getters (w : World) (ops : List StaticOp)
    (h : ∀ m, StaticOp.SetName m ∉ ops) : World.applyAll w ops = w := by
  induction ops generalizing w with
  | nil => rfl
  | cons op ops ih =>
    have hop : World.apply w op = w := by
      cases op with
      | SetName m => exact absurd (List.mem_cons_self _ _) (h m)
      | GetThreadId => rfl
      | GetThis => rfl
      | GetName => rfl
    have ht : ∀ m, StaticOp.SetName m ∉ ops := fun m hm => h m (List.mem_cons_of_mem _ hm)
    simp only [World.applyAll, List.foldl_cons, hop]
    exact ih w ht

/-- C7: after `SetName(n)` the caller's `GetName()` is `n` and its `GetThis()` is what it
was; if the caller is bound to an object, that object's `getName()` is `n` and every other
object is unchanged; if it is not bound, no object is modified; in both cases every
object keeps its `m_id` and its thread handle. A thread whose thread-locals are still the
initial ones and that has only called the static getters sees `GetThis() == nullptr` and
`GetName() == "UNKNOWN"`. -/
theorem SetName_contract (w : World) (n : String) :
    GetName (SetName w n) = n ∧
    GetThis (SetName w n) = GetThis w ∧
    (∀ a, GetThis w = some a →
        ((SetName w n).heap a).getName = n ∧
        ∀ b, b ≠ a → (SetName w n).heap b = w.heap b) ∧
    (GetThis w = none → (SetName w n).heap = w.heap) ∧
    (∀ a, ((SetName w n).heap a).getId = (w.heap a).getId ∧
          ((SetName w n).heap a).m_thread = (w.heap a).m_thread) ∧
    (∀ (heap : Nat → Thread) (tid : Int) (ops : List StaticOp),
        (∀ m, StaticOp.SetName m ∉ ops) →
        GetThis (World.applyAll { heap := heap, tls := ThreadLocal.init, tid := tid } ops)
          = none ∧
        GetName (World.applyAll { heap := heap, tls := ThreadLocal.init, tid := tid } ops)
          = "UNKNOWN") := by
  refine ⟨rfl, rfl, ?_, ?_, ?_, ?_⟩
  · intro a ha
    simp only [GetThis] at ha
    refine ⟨?_, ?_⟩
    · simp [SetName, ha, Thread.getName]
    · intro b hb
      simp [SetName, ha, Function.update, hb]
  · intro ha
    simp only [GetThis] at ha
    simp [SetName, ha]
  · intro a
    cases ht : w.tls.t_thread with
    | none => simp [SetName, ht]
    | some c =>
      by_cases hac : a = c
      · subst hac
        simp [SetName, ht, Thread.getId]
      · simp [SetName, ht, Function.update, hac]
  · intro heap tid ops hops
    rw [applyAll_getters _ ops hops]
    exact ⟨rfl, rfl⟩

/-- C7, evaluated: `SetName("io")` on a bound thread renames the thread and the object at
4096 and leaves the object at 8 alone; on an unbound thread it changes no object; an unbound
thread that only calls getters sees `nullptr` and "UNKNOWN". -/
theorem SetName_contract_witness :
    GetName (SetName boundWorld "io") = "io" ∧
    ((SetName boundWorld "io").heap 4096).getName = "io" ∧
    (SetName boundWorld "io").heap 8 = boundWorld.heap 8 ∧
    ((SetName boundWorld "io").heap 4096).m_thread = 7 ∧
    (SetName unboundWorld "main").heap = unboundWorld.heap ∧
    GetThis (World.applyAll unboundWorld [StaticOp.GetName, StaticOp.GetThis]) = none ∧
    GetName (World.applyAll unboundWorld [StaticOp.GetName, StaticOp.GetThis]) = "UNKNOWN" :=
  ⟨(SetName_contract boundWorld "io").1,
   ((SetName_contract boundWorld "io").2.2.1 4096 rfl).1,
   ((SetName_contract boundWorld "io").2.2.1 4096 rfl).2 8 (by decide),
   by decide,
   (SetName_contract unboundWorld "main").2.2.2.1 rfl,
   by decide, by decide⟩

/-! ## Start-up handshake -/

theorem Sys.obj_setObj (env : Env) (s : Sys) (t : Thread) :
    (s.setObj env t).heap env.self = t := by
  simp [Sys.setObj]

theorem Inv.init (env : Env) (heap : Nat → Thread) : Inv env (Sys.init env heap) := by
  constructor <;> simp [Sys.init, Sys.obj, ChildPc.rank, CreatorPc.inWait, CreatorPc.created,
    currentName, namesSet, Sys.createCalls, ThreadLocal.init]

theorem wrapInt32_zero : wrapInt32 0 = 0 := by decide

theorem wrapInt32_one : wrapInt32 1 = 1 := by decide

theorem Inv.stepCreator (env : Env) (s s1 : Sys) (h : Inv env s)
    (hs : s.stepCreator env = some s1) : Inv env s1 := by
  unfold Sys.stepCreator at hs
  by_cases hab : s.child = ChildPc.aborted
  · simp [hab] at hs
  · simp only [hab, if_false] at hs
    obtain ⟨h1, h2, h3, h4, h5, h6, h7, h8, h9, h10, h11, h12, h13, h14, h15, h16, h17, h18,
      h19⟩ := h
    cases hc : s.creator with
    | create =>
      have hch : s.child = ChildPc.notStarted := h14 (by simp [hc, CreatorPc.created])
      simp only [hc] at hs
      by_cases hrt : env.rt = 0
      · simp only [hrt, ne_eq, not_true_eq_false, if_false, Option.some.injEq] at hs
        subst hs
        simp [hc, hch, Sys.obj, Sys.setObj, CreatorPc.inWait, CreatorPc.created, ChildPc.rank,
          currentName, namesSet] at h2 h3 h4 h5 h6 h7 h8 h9 h10 h11 h12 h13 h14 h15 h16 h17 h18 h19
        constructor <;> first
          | assumption
          | simp [Sys.obj, Sys.setObj, CreatorPc.inWait, CreatorPc.created, ChildPc.rank,
            currentName, namesSet, *]
      · simp only [hrt, ne_eq, not_false_eq_true, if_true, Option.some.injEq] at hs
        subst hs
        simp [hc, hch, Sys.obj, Sys.setObj, CreatorPc.inWait, CreatorPc.created, ChildPc.rank,
          currentName, namesSet] at h2 h3 h4 h5 h6 h7 h8 h9 h10 h11 h12 h13 h14 h15 h16 h17 h18 h19
        constructor <;> first
          | assumption
          | simp [Sys.obj, Sys.setObj, CreatorPc.inWait, CreatorPc.created, ChildPc.rank,
            currentName, namesSet, *]
    | semWait =>
      simp only [hc, Option.some.injEq] at hs
      subst hs
      simp [hc, Sys.obj, Sys.setObj, CreatorPc.inWait, CreatorPc.created]
        at h2 h3 h4 h5 h6 h7 h8 h9 h10 h11 h12 h13 h14 h15 h16 h17 h18 h19
      constructor <;> first
        | assumption
        | simp [Sys.obj, Sys.setObj, CreatorPc.inWait, CreatorPc.created, *]
    | semTest =>
      simp only [hc] at hs
      have hnr : ¬ (CreatorPc.semTest = CreatorPc.returned) := by decide
      have h8a := h8
      simp only [hc, hnr, if_false, sub_zero] at h8a
      by_cases hr : 7 ≤ s.child.rank
      · simp only [hr, if_true] at h8a
        simp only [Semaphore.wait, h8a, one_ne_zero, if_false, sub_self, wrapInt32_zero,
          Option.some.injEq] at hs
        subst hs
        simp [hc, hr, Sys.obj, Sys.setObj, CreatorPc.inWait, CreatorPc.created]
          at h2 h3 h4 h5 h6 h7 h8 h9 h10 h11 h12 h13 h14 h15 h16 h17 h18 h19
        constructor <;> first
          | assumption
          | simp [Sys.obj, Sys.setObj, CreatorPc.inWait, CreatorPc.created, *]
      · simp only [hr, if_false] at h8a
        simp only [Semaphore.wait, h8a, if_true, Option.some.injEq] at hs
        subst hs
        simp [hc, hr, Sys.obj, Sys.setObj, CreatorPc.inWait, CreatorPc.created]
          at h2 h3 h4 h5 h6 h7 h8 h9 h10 h11 h12 h13 h14 h15 h16 h17 h18 h19
        constructor <;> first
          | assumption
          | simp [Sys.obj, Sys.setObj, CreatorPc.inWait, CreatorPc.created, *]
    | semSleep =>
      simp only [hc, Option.some.injEq] at hs
      subst hs
      simp [hc, Sys.obj, Sys.setObj, CreatorPc.inWait, CreatorPc.created]
        at h2 h3 h4 h5 h6 h7 h8 h9 h10 h11 h12 h13 h14 h15 h16 h17 h18 h19
      constructor <;> first
        | assumption
        | simp [Sys.obj, Sys.setObj, CreatorPc.inWait, CreatorPc.created, *]
    | returned => simp [hc] at hs
    | thrown e => simp [hc] at hs

theorem getLast_take_succ (names : List String) (k : Nat) (n : String)
    (h : names.get? k = some n) : (names.take (k + 1)).getLast? = some n := by
  have h1 : names[k]? = some n := by simpa using h
  rw [List.take_succ, h1]
  simp

theorem take_of_get_none (names : List String) (k : Nat) (h : names.get? k = none) :
    names.take k = names := by
  rw [List.get?_eq_none] at h
  exact List.take_of_length_le h

theorem Inv.stepChild (env : Env) (s s1 : Sys) (h : Inv env s)
    (hs : s.stepChild env = some s1) : Inv env s1 := by
  unfold Sys.stepChild at hs
  obtain ⟨h1, h2, h3, h4, h5, h6, h7, h8, h9, h10, h11, h12, h13, h14, h15, h16, h17, h18,
    h19⟩ := h
  cases hc : s.child with
  | notStarted => simp [hc] at hs
  | finished => simp [hc] at hs
  | aborted => simp [hc] at hs
  | bindThis =>
    simp only [hc, Option.some.injEq] at hs
    subst hs
    simp [hc, Sys.obj, Sys.setObj, ChildPc.rank, currentName, namesSet, GetThreadId]
      at h2 h3 h4 h5 h6 h7 h8 h9 h10 h11 h12 h13 h14 h15 h16 h17 h18 h19
    constructor <;> first
      | assumption
      | simp [Sys.obj, Sys.setObj, ChildPc.rank, currentName, namesSet, GetThreadId, *,
        Semaphore.signal, wrapInt32_one]
  | bindName =>
    simp only [hc, Option.some.injEq] at hs
    subst hs
    simp [hc, Sys.obj, Sys.setObj, ChildPc.rank, currentName, namesSet, GetThreadId]
      at h2 h3 h4 h5 h6 h7 h8 h9 h10 h11 h12 h13 h14 h15 h16 h17 h18 h19
    constructor <;> first
      | assumption
      | simp [Sys.obj, Sys.setObj, ChildPc.rank, currentName, namesSet, GetThreadId, *,
        Semaphore.signal, wrapInt32_one]
  | setId =>
    simp only [hc, Option.some.injEq] at hs
    subst hs
    simp [hc, Sys.obj, Sys.setObj, ChildPc.rank, currentName, namesSet, GetThreadId]
      at h2 h3 h4 h5 h6 h7 h8 h9 h10 h11 h12 h13 h14 h15 h16 h17 h18 h19
    constructor <;> first
      | assumption
      | simp [Sys.obj, Sys.setObj, ChildPc.rank, currentName, namesSet, GetThreadId, *,
        Semaphore.signal, wrapInt32_one]
  | setOsName =>
    simp only [hc, Option.some.injEq] at hs
    subst hs
    simp [hc, Sys.obj, Sys.setObj, ChildPc.rank, currentName, namesSet, GetThreadId]
      at h2 h3 h4 h5 h6 h7 h8 h9 h10 h11 h12 h13 h14 h15 h16 h17 h18 h19
    constructor <;> first
      | assumption
      | simp [Sys.obj, Sys.setObj, ChildPc.rank, currentName, namesSet, GetThreadId, *,
        Semaphore.signal, wrapInt32_one]
  | swapCb =>
    simp only [hc, Option.some.injEq] at hs
    subst hs
    simp [hc, Sys.obj, Sys.setObj, ChildPc.rank, currentName, namesSet, GetThreadId]
      at h2 h3 h4 h5 h6 h7 h8 h9 h10 h11 h12 h13 h14 h15 h16 h17 h18 h19
    constructor <;> first
      | assumption
      | simp [Sys.obj, Sys.setObj, ChildPc.rank, currentName, namesSet, GetThreadId, *,
        Semaphore.signal, wrapInt32_one]
  | signal =>
    simp only [hc, Option.some.injEq] at hs
    subst hs
    simp [hc, Sys.obj, Sys.setObj, ChildPc.rank, currentName, namesSet, GetThreadId]
      at h2 h3 h4 h5 h6 h7 h8 h9 h10 h11 h12 h13 h14 h15 h16 h17 h18 h19
    constructor <;> first
      | assumption
      | simp [Sys.obj, Sys.setObj, ChildPc.rank, currentName, namesSet, GetThreadId, *,
        Semaphore.signal, wrapInt32_one]
  | callCb k =>
    simp only [hc] at hs
    have h7a : s.cb = env.cb := by simpa [hc, ChildPc.rank] using h7
    have h2a : s.w.tls.t_thread = some env.self := by simpa [hc, ChildPc.rank] using h2
    have hk : k ≤ (env.cb.getD []).length := h17 k hc
    rw [h7a] at hs
    cases hcb : env.cb with
    | none =>
      simp only [hcb, Option.some.injEq] at hs
      subst hs
      simp [hc, hcb, Sys.obj, Sys.setObj, ChildPc.rank, currentName, namesSet, GetThreadId]
        at h2 h3 h4 h5 h6 h7 h8 h9 h10 h11 h12 h13 h14 h15 h16 h17 h18 h19
      constructor <;> first
        | assumption
        | simp [Sys.obj, Sys.setObj, ChildPc.rank, currentName, namesSet, GetThreadId, *]
    | some names =>
      simp only [hcb] at hs hk
      cases hn : names.get? k with
      | none =>
        simp only [hn, Option.some.injEq] at hs
        subst hs
        have ht := take_of_get_none names k hn
        simp [hc, hcb, ht, Sys.obj, Sys.setObj, ChildPc.rank, currentName, namesSet, GetThreadId]
          at h2 h3 h4 h5 h6 h7 h8 h9 h10 h11 h12 h13 h14 h15 h16 h17 h18 h19
        constructor <;> first
          | assumption
          | simp [Sys.obj, Sys.setObj, ChildPc.rank, currentName, namesSet, GetThreadId, *]
      | some n =>
        simp only [hn, Option.some.injEq] at hs
        subst hs
        have ht := getLast_take_succ names k n hn
        have hlt : k + 1 ≤ names.length := by
          have := List.get?_eq_some.mp hn
          obtain ⟨hlt, _⟩ := this
          omega
        simp [hc, hcb, Sys.obj, Sys.setObj, ChildPc.rank, currentName,
          namesSet, GetThreadId] at h2 h3 h4 h5 h6 h7 h8 h9 h10 h11 h12 h13 h14 h15 h16 h17 h18 h19
        constructor <;> first
          | assumption
          | simp [Sys.obj, Sys.setObj, ChildPc.rank, currentName, namesSet, GetThreadId, *,
            SetName, ht]

theorem Inv.next (env : Env) (s : Sys) (a : Actor) (h : Inv env s) : Inv env (s.next env a) := by
  cases a with
  | creator =>
    unfold Sys.next
    cases hs : s.stepCreator env with
    | none => simpa using h
    | some s1 => simpa using Inv.stepCreator env s s1 h hs
  | child =>
    unfold Sys.next
    cases hs : s.stepChild env with
    | none => simpa using h
    | some s1 => simpa using Inv.stepChild env s s1 h hs

theorem Sys.exec_sched_cons (env : Env) (s : Sys) (a : Actor) (sched : List Actor) :
    s.exec env (a :: sched) = (s.next env a).exec env sched := rfl

theorem Inv.exec (env : Env) (sched : List Actor) (s : Sys) (h : Inv env s) :
    Inv env (s.exec env sched) := by
  induction sched generalizing s with
  | nil => exact h
  | cons a sched ih =>
    rw [Sys.exec_sched_cons]
    exact ih _ (Inv.next env s a h)

/-- Every state reached from the start of the constructor satisfies the invariant. -/
theorem Inv.reachable (env : Env) (heap : Nat → Thread) (sched : List Actor) :
    Inv env ((Sys.init env heap).exec env sched) :=
  Inv.exec env sched _ (Inv.init env heap)

theorem Sys.next_creator_ne_create (env : Env) (s : Sys) (a : Actor)
    (h : s.creator ≠ CreatorPc.create) : (s.next env a).creator ≠ CreatorPc.create := by
  cases a with
  | creator =>
    unfold Sys.next Sys.stepCreator
    by_cases hab : s.child = ChildPc.aborted
    · simpa [hab] using h
    · simp only [hab, if_false]
      cases hc : s.creator with
      | create => exact absurd hc h
      | semWait => simp
      | semTest =>
        simp only
        cases (s.obj env).m_semaphore.wait <;> simp
      | semSleep => simp
      | returned => simp [hc]
      | thrown e => simp [hc]
  | child =>
    unfold Sys.next Sys.stepChild
    cases hc : s.child with
    | notStarted => simpa using h
    | finished => simpa using h
    | aborted => simpa using h
    | bindThis => simpa using h
    | bindName => simpa using h
    | setId => simpa using h
    | setOsName => simpa using h
    | swapCb => simpa using h
    | signal => simpa using h
    | callCb k =>
      simp only
      cases s.cb with
      | none => simpa using h
      | some names =>
        simp only
        cases names.get? k <;> simpa using h

theorem Sys.exec_creator_ne_create (env : Env) (sched : List Actor) (s : Sys)
    (h : s.creator ≠ CreatorPc.create) : (s.exec env sched).creator ≠ CreatorPc.create := by
  induction sched generalizing s with
  | nil => exact h
  | cons a sched ih =>
    rw [Sys.exec_sched_cons]
    exact ih _ (Sys.next_creator_ne_create env s a h)

theorem Sys.next_creator_of_create (env : Env) (s : Sys) (h : s.creator = CreatorPc.create)
    (hch : s.child = ChildPc.notStarted) :
    (s.next env Actor.creator).creator ≠ CreatorPc.create ∧ s.next env Actor.child = s := by
  constructor
  · unfold Sys.next Sys.stepCreator
    simp only [hch, h]
    by_cases hrt : env.rt = 0 <;> simp [hrt]
  · unfold Sys.next Sys.stepChild
    simp [hch]

/-- The creating thread has left `pthread_create` exactly when it has been scheduled. -/
theorem Sys.exec_creator_create_iff (env : Env) (sched : List Actor) (s : Sys)
    (h : s.creator = CreatorPc.create) (hch : s.child = ChildPc.notStarted) :
    (s.exec env sched).creator = CreatorPc.create ↔ Actor.creator ∉ sched := by
  induction sched generalizing s with
  | nil => simpa [Sys.exec] using h
  | cons a sched ih =>
    rw [Sys.exec_sched_cons]
    obtain ⟨h1, h2⟩ := Sys.next_creator_of_create env s h hch
    cases a with
    | creator =>
      have := Sys.exec_creator_ne_create env sched _ h1
      simp [this]
    | child =>
      rw [h2, ih s h hch]
      simp

/-- After the constructor has returned the object holds the handle `pthread_create` stored,
which is what `join()` and the destructor later test. -/
theorem constructed_holds_handle (env : Env) (heap : Nat → Thread) (sched : List Actor)
    (hret : ((Sys.init env heap).exec env sched).creator = CreatorPc.returned) :
    (((Sys.init env heap).exec env sched).obj env).m_thread = env.handle := by
  have h := Inv.reachable env heap sched
  generalize (Sys.init env heap).exec env sched = s at hret h
  have := h.m_thread
  simpa [hret, CreatorPc.created] using this

/-- C1 (as stated, refuted): with a callable that calls `SetName("worker")`, the
interleaving `childFirst` reaches a state in which the constructor has returned and the new
thread's thread-local name is "worker", not the name "thread_0" passed to the constructor. -/
theorem startup_name_overwritten :
    ((Sys.init renamingEnv blankHeap).exec renamingEnv childFirst).creator
      = CreatorPc.returned ∧
    GetName ((Sys.init renamingEnv blankHeap).exec renamingEnv childFirst).w = "worker" ∧
    ¬ (GetName ((Sys.init renamingEnv blankHeap).exec renamingEnv childFirst).w
        = renamingEnv.name) := by
  decide

/-- C1 (amended): in every state reached by any interleaving of the constructor with
`Thread::run` in which the constructor has returned, `pthread_create` had succeeded, `m_id`
holds the new thread's TID, the new thread's `t_thread` points to this object, exactly one
`signal()` has been performed and the new thread is past it, and the new thread's
thread-local name is the name passed to the constructor as long as the callable has not
called `SetName` (afterwards it is the last name the callable set). -/
theorem startup_synchronised (env : Env) (heap : Nat → Thread) (sched : List Actor)
    (hret : ((Sys.init env heap).exec env sched).creator = CreatorPc.returned) :
    env.rt = 0 ∧
    (((Sys.init env heap).exec env sched).obj env).getId = env.tid ∧
    GetThis ((Sys.init env heap).exec env sched).w = some env.self ∧
    (namesSet env.cb ((Sys.init env heap).exec env sched).child = [] →
      GetName ((Sys.init env heap).exec env sched).w = env.name) ∧
    GetName ((Sys.init env heap).exec env sched).w
      = currentName env ((Sys.init env heap).exec env sched).child ∧
    ((Sys.init env heap).exec env sched).signalCalls = 1 ∧
    7 ≤ ((Sys.init env heap).exec env sched).child.rank := by
  have h := Inv.reachable env heap sched
  generalize (Sys.init env heap).exec env sched = s at hret h
  have hr : 7 ≤ s.child.rank := h.returned hret
  have hname : GetName s.w = currentName env s.child := by
    have := h.t_name
    rw [if_pos (by omega)] at this
    exact this
  refine ⟨(h.created (by simp [hret, CreatorPc.created])).1, ?_, ?_, ?_, hname, ?_, hr⟩
  · have := h.m_id
    rw [if_pos (by omega)] at this
    exact this
  · have := h.t_thread
    rw [if_pos (by omega)] at this
    exact this
  · intro hnil
    rw [hname]
    simp [currentName, hnil]
  · have := h.signalCalls
    rw [if_pos hr] at this
    exact this

/-- C1 (amended), evaluated: under `creatorFirst` (the creator sleeps, wakes spuriously and
sleeps again before the signal) the constructor returns, with `m_id = 100`, the new thread
bound to the object at 4096 and named "connection_worker_thread_0". -/
theorem startup_synchronised_witness :
    ((Sys.init longNameEnv blankHeap).exec longNameEnv creatorFirst).creator
      = CreatorPc.returned ∧
    (((Sys.init longNameEnv blankHeap).exec longNameEnv creatorFirst).obj longNameEnv).getId
      = 100 ∧
    GetThis ((Sys.init longNameEnv blankHeap).exec longNameEnv creatorFirst).w = some 4096 ∧
    GetName ((Sys.init longNameEnv blankHeap).exec longNameEnv creatorFirst).w
      = "connection_worker_thread_0" :=
  ⟨by decide,
   (startup_synchronised longNameEnv blankHeap creatorFirst (by decide)).2.1,
   (startup_synchronised longNameEnv blankHeap creatorFirst (by decide)).2.2.1,
   by decide⟩

/-- C3: in every state reached by any interleaving, the constructor has thrown if and only
if `pthread_create` returned non-zero (and the constructor has run that call); what it
throws is `std::logic_error("pthread_create error")`, at which point `pthread_create` is the
only call made, made exactly once, and `m_semaphore.wait()` has not been entered; when
`pthread_create` returns `0` the constructor never throws; and `pthread_create` is never
called a second time. -/
theorem create_failure_is_hard (env : Env) (heap : Nat → Thread) (sched : List Actor) :
    ((∃ e, ((Sys.init env heap).exec env sched).creator = CreatorPc.thrown e) ↔
        (env.rt ≠ 0 ∧ Actor.creator ∈ sched)) ∧
    (∀ e, ((Sys.init env heap).exec env sched).creator = CreatorPc.thrown e →
        e = Exn.logic_error "pthread_create error" ∧
        ((Sys.init env heap).exec env sched).calls = [Call.pthread_create env.rt] ∧
        ((Sys.init env heap).exec env sched).createCalls = 1 ∧
        ((Sys.init env heap).exec env sched).waitCalls = 0) ∧
    (env.rt = 0 → ∀ e, ((Sys.init env heap).exec env sched).creator ≠ CreatorPc.thrown e) ∧
    ((Sys.init env heap).exec env sched).createCalls ≤ 1 := by
  have h := Inv.reachable env heap sched
  have hiff := Sys.exec_creator_create_iff env sched (Sys.init env heap) rfl rfl
  generalize (Sys.init env heap).exec env sched = s at h hiff
  have hcalls : ∀ e, s.creator = CreatorPc.thrown e →
      s.calls = [Call.pthread_create env.rt] := by
    intro e he
    have hch := h.notCreated (by simp [he, CreatorPc.created])
    have := h.calls
    simpa [he, hch, ChildPc.rank] using this
  have hcount : s.createCalls ≤ 1 := by
    have := h.calls
    unfold Sys.createCalls
    rw [this]
    by_cases h1 : s.creator = CreatorPc.create <;> by_cases h2 : 5 ≤ s.child.rank <;>
      simp [h1, h2, Call.isCreate]
  refine ⟨⟨?_, ?_⟩, ?_, ?_, hcount⟩
  · rintro ⟨e, he⟩
    refine ⟨(h.thrown e he).2, ?_⟩
    by_contra hnot
    have := hiff.mpr hnot
    rw [he] at this
    cases this
  · rintro ⟨hrt, hin⟩
    have hne : s.creator ≠ CreatorPc.create := fun hc => (hiff.mp hc) hin
    cases hc : s.creator with
    | create => exact absurd hc hne
    | thrown e => exact ⟨e, rfl⟩
    | semWait => exact absurd (h.created (by simp [hc, CreatorPc.created])).1 hrt
    | semTest => exact absurd (h.created (by simp [hc, CreatorPc.created])).1 hrt
    | semSleep => exact absurd (h.created (by simp [hc, CreatorPc.created])).1 hrt
    | returned => exact absurd (h.created (by simp [hc, CreatorPc.created])).1 hrt
  · intro e he
    refine ⟨(h.thrown e he).1, hcalls e he, ?_, ?_⟩
    · unfold Sys.createCalls
      rw [hcalls e he]
      simp [Call.isCreate]
    · have := h.waitCalls
      simpa [he, CreatorPc.inWait] using this
  · intro hrt e he
    exact (h.thrown e he).2 hrt

/-- C3, evaluated: when `pthread_create` fails with code 11 the constructor throws at its
first step, whatever else is scheduled, having made that one call. -/
theorem create_failure_is_hard_witness :
    ((Sys.init failingEnv blankHeap).exec failingEnv
        [Actor.child, Actor.creator, Actor.child, Actor.creator]).creator
      = CreatorPc.thrown (Exn.logic_error "pthread_create error") ∧
    ((Sys.init failingEnv blankHeap).exec failingEnv
        [Actor.child, Actor.creator, Actor.child, Actor.creator]).calls
      = [Call.pthread_create 11] ∧
    ((Sys.init failingEnv blankHeap).exec failingEnv
        [Actor.child, Actor.creator, Actor.child, Actor.creator]).createCalls ≤ 1 :=
  ⟨by decide, by decide,
   (create_failure_is_hard failingEnv blankHeap
      [Actor.child, Actor.creator, Actor.child, Actor.creator]).2.2.2⟩

/-- C6: in every state reached by any interleaving in which the new thread is inside the
callable and has not yet called `SetName`, `GetThis()` is the object being constructed,
`GetThreadId()` equals that object's `getId()`, and `GetName()` equals that object's
`getName()` and the full `name` passed to the constructor, of whatever length (only the name
given to the kernel by `pthread_setname_np` is cut to 15 bytes). -/
theorem accessors_agree_in_callable (env : Env) (heap : Nat → Thread) (sched : List Actor)
    (hin : ((Sys.init env heap).exec env sched).child = ChildPc.callCb 0) :
    GetThis ((Sys.init env heap).exec env sched).w = some env.self ∧
    GetThreadId ((Sys.init env heap).exec env sched).w
      = (((Sys.init env heap).exec env sched).w.heap env.self).getId ∧
    GetName ((Sys.init env heap).exec env sched).w
      = (((Sys.init env heap).exec env sched).w.heap env.self).getName ∧
    GetName ((Sys.init env heap).exec env sched).w = env.name ∧
    Call.pthread_setname_np (String.mk (env.name.data.take 15))
      ∈ ((Sys.init env heap).exec env sched).calls := by
  have h := Inv.reachable env heap sched
  generalize (Sys.init env heap).exec env sched = s at hin h
  have h2 := h.t_thread
  have h3 := h.t_name
  have h4 := h.m_name
  have h5 := h.m_id
  have h13 := h.calls
  simp [hin, ChildPc.rank, currentName, namesSet, Sys.obj] at h2 h3 h4 h5 h13
  refine ⟨h2, ?_, ?_, h3, ?_⟩
  · simp [GetThreadId, Thread.getId, h5, h.tid]
  · simp [GetName, Thread.getName, h3, h4]
  · rw [h13]
    simp

/-- C6, evaluated: with the 26-byte name "connection_worker_thread_0" the callable sees the
full name through `GetName()` although the kernel was given "connection_work". -/
theorem accessors_agree_in_callable_witness :
    ((Sys.init longNameEnv blankHeap).exec longNameEnv
        [Actor.creator, Actor.child, Actor.child, Actor.child, Actor.child, Actor.child,
         Actor.child]).child = ChildPc.callCb 0 ∧
    GetName ((Sys.init longNameEnv blankHeap).exec longNameEnv
        [Actor.creator, Actor.child, Actor.child, Actor.child, Actor.child, Actor.child,
         Actor.child]).w = "connection_worker_thread_0" ∧
    ((Sys.init longNameEnv blankHeap).exec longNameEnv
        [Actor.creator, Actor.child, Actor.child, Actor.child, Actor.child, Actor.child,
         Actor.child]).calls
      = [Call.pthread_create 0, Call.pthread_setname_np "connection_work"] :=
  ⟨by decide,
   (accessors_agree_in_callable longNameEnv blankHeap
      [Actor.creator, Actor.child, Actor.child, Actor.child, Actor.child, Actor.child,
       Actor.child] (by decide)).2.2.2.1,
   by decide⟩

end sylar

namespace test_accept


/-! ## The read handler -/

theorem sends_append (a b : List SysCall) : sends (a ++ b) = sends a + sends b := by
  simp [sends, List.filter_append]

theorem closes_append (a b : List SysCall) : closes (a ++ b) = closes a + closes b := by
  simp [closes, List.filter_append]

theorem sends_recvs (fd : Int) (n : Nat) : sends (List.replicate n (recvCall fd)) = 0 := by
  induction n with
  | zero => rfl
  | succ n ih =>
    rw [List.replicate_succ]
    simp [sends, recvCall]

theorem closes_recvs (fd : Int) (n : Nat) : closes (List.replicate n (recvCall fd)) = 0 := by
  induction n with
  | zero => rfl
  | succ n ih =>
    rw [List.replicate_succ]
    simp [closes, recvCall]

theorem sends_finalCalls (fd : Int) (r : RecvResult) :
    sends (finalCalls fd r) = if r.ret > 0 then 1 else 0 := by
  unfold finalCalls
  split <;> simp [sends]

theorem closes_finalCalls (fd : Int) (r : RecvResult) : closes (finalCalls fd r) = 1 := by
  unfold finalCalls
  split <;> simp [closes]

theorem finalCalls_getLast (fd : Int) (r : RecvResult) (pre : List SysCall) :
    (pre ++ finalCalls fd r).getLast? = some (SysCall.close fd) := by
  unfold finalCalls
  split
  · rw [show pre ++ [SysCall.send fd response (strlen response), SysCall.close fd]
        = (pre ++ [SysCall.send fd response (strlen response)]) ++ [SysCall.close fd] by simp]
    exact List.getLast?_concat _
  · exact List.getLast?_concat _

/-- An iteration whose `recv` gives `(-1, EAGAIN)` goes round the loop again. -/
theorem readLoop_again (fd : Int) (recv : Nat → RecvResult) (fuel i : Nat)
    (calls : List SysCall) (h : (recv i).isAgain) :
    readLoop fd recv (fuel + 1) i calls = readLoop fd recv fuel (i + 1) (calls ++ [recvCall fd]) := by
  obtain ⟨h1, h2⟩ := h
  simp [readLoop, h1, h2, recvCall]

/-- An iteration whose `recv` gives anything else (positive, `0`, `-1` with another errno)
leaves the loop after the final calls. -/
theorem readLoop_final (fd : Int) (recv : Nat → RecvResult) (fuel i : Nat)
    (calls : List SysCall) (hwf : (recv i).wellFormed) (h : ¬ (recv i).isAgain) :
    readLoop fd recv (fuel + 1) i calls =
      { calls := calls ++ [recvCall fd] ++ finalCalls fd (recv i), returned := true } := by
  unfold RecvResult.isAgain at h
  unfold RecvResult.wellFormed at hwf
  by_cases hpos : (recv i).ret > 0
  · simp [readLoop, hpos, recvCall, finalCalls]
  · have hle : (recv i).ret ≤ 0 := by omega
    by_cases hz : (recv i).ret = 0
    · simp [readLoop, hz, recvCall, finalCalls]
    · have hm : (recv i).ret = -1 := by omega
      have he : (recv i).errno ≠ EAGAIN := fun e => h ⟨hm, e⟩
      simp [readLoop, hm, he, recvCall, finalCalls]

/-- While every result is `(-1, EAGAIN)` the handler only issues `recv` calls and is still
inside the loop. -/
theorem readLoop_all_again (fd : Int) (recv : Nat → RecvResult) (fuel i : Nat)
    (calls : List SysCall) (h : ∀ j, j < fuel → (recv (i + j)).isAgain) :
    readLoop fd recv fuel i calls =
      { calls := calls ++ List.replicate fuel (recvCall fd), returned := false } := by
  induction fuel generalizing i calls with
  | zero => simp [readLoop]
  | succ fuel ih =>
    rw [readLoop_again fd recv fuel i calls (by simpa using h 0 (Nat.succ_pos _))]
    rw [ih (i + 1) (calls ++ [recvCall fd])
      (fun j hj => by simpa [Nat.add_assoc, Nat.add_comm 1 j] using h (j + 1) (by omega))]
    simp [List.replicate_succ]

/-- With the first result other than `(-1, EAGAIN)` at position `i + k` and more than `k`
iterations allowed, the handler issues `k + 1` `recv` calls, the final calls, and returns. -/
theorem readLoop_first_final (fd : Int) (recv : Nat → RecvResult) (fuel i k : Nat)
    (calls : List SysCall) (hk : k < fuel) (h : ∀ j, j < k → (recv (i + j)).isAgain)
    (hwf : (recv (i + k)).wellFormed) (hn : ¬ (recv (i + k)).isAgain) :
    readLoop fd recv fuel i calls =
      { calls := calls ++ List.replicate (k + 1) (recvCall fd) ++ finalCalls fd (recv (i + k)),
        returned := true } := by
  induction k generalizing fuel i calls with
  | zero =>
    obtain ⟨f, rfl⟩ : ∃ f, fuel = f + 1 := ⟨fuel - 1, by omega⟩
    simpa using readLoop_final fd recv f i calls (by simpa using hwf) (by simpa using hn)
  | succ k ih =>
    obtain ⟨f, rfl⟩ : ∃ f, fuel = f + 1 := ⟨fuel - 1, by omega⟩
    rw [readLoop_again fd recv f i calls (by simpa using h 0 (Nat.succ_pos _))]
    have e : i + 1 + k = i + (k + 1) := by omega
    rw [ih f (i + 1) (calls ++ [recvCall fd]) (by omega)
      (fun j hj => by
        have := h (j + 1) (by omega)
        rwa [show i + (j + 1) = i + 1 + j by omega] at this)
      (by rw [e]; exact hwf) (by rw [e]; exact hn)]
    rw [e]
    simp [List.replicate_succ]

/-- Within any number of iterations either all results were `(-1, EAGAIN)` or there is a
first one that was not. -/
theorem first_final_or_all_again (recv : Nat → RecvResult) (fuel : Nat) :
    (∀ j, j < fuel → (recv j).isAgain) ∨
    ∃ k, k < fuel ∧ (∀ j, j < k → (recv j).isAgain) ∧ ¬ (recv k).isAgain := by
  induction fuel with
  | zero => left; intro j hj; omega
  | succ fuel ih =>
    rcases ih with hall | ⟨k, hk, hpre, hnot⟩
    · by_cases hf : (recv fuel).isAgain
      · left
        intro j hj
        rcases Nat.lt_succ_iff_lt_or_eq.mp hj with h | h
        · exact hall j h
        · rw [h]; exact hf
      · right
        exact ⟨fuel, Nat.lt_succ_self _, hall, hf⟩
    · right
      exact ⟨k, by omega, hpre, hnot⟩

/-- The handler's run in closed form. -/
theorem readHandler_eq (fd : Int) (recv : Nat → RecvResult) (fuel : Nat)
    (hwf : ∀ i, (recv i).wellFormed) :
    ((∀ j, j < fuel → (recv j).isAgain) ∧
      readHandler fd recv fuel =
        { calls := List.replicate fuel (recvCall fd), returned := false }) ∨
    ∃ k, k < fuel ∧ (∀ j, j < k → (recv j).isAgain) ∧ ¬ (recv k).isAgain ∧
      readHandler fd recv fuel =
        { calls := List.replicate (k + 1) (recvCall fd) ++ finalCalls fd (recv k),
          returned := true } := by
  rcases first_final_or_all_again recv fuel with hall | ⟨k, hk, hpre, hnot⟩
  · left
    refine ⟨hall, ?_⟩
    have := readLoop_all_again fd recv fuel 0 [] (by simpa using hall)
    simpa [readHandler] using this
  · right
    refine ⟨k, hk, hpre, hnot, ?_⟩
    have := readLoop_first_final fd recv fuel 0 k [] hk (by simpa using hpre)
      (by simpa using hwf k) (by simpa using hnot)
    simpa [readHandler] using this

theorem readHandler_first_final (fd : Int) (recv : Nat → RecvResult) (fuel k : Nat)
    (hk : k < fuel) (h : ∀ j, j < k → (recv j).isAgain)
    (hwf : (recv k).wellFormed) (hn : ¬ (recv k).isAgain) :
    readHandler fd recv fuel =
      { calls := List.replicate (k + 1) (recvCall fd) ++ finalCalls fd (recv k),
        returned := true } := by
  have := readLoop_first_final fd recv fuel 0 k [] hk (by simpa using h)
    (by simpa using hwf) (by simpa using hn)
  simpa [readHandler] using this

theorem not_isAgain_of_pos (r : RecvResult) (h : 0 < r.ret) : ¬ r.isAgain := by
  intro ha
  unfold RecvResult.isAgain at ha
  omega

/-- C8 (as stated, refuted): when `recv` delivers the 4 bytes "ping" on descriptor 5 the
handler does not pass those bytes to `send`; it calls `recv`, then `send` with the fixed
90-byte HTTP response, then `close`. -/
theorem echo_refuted :
    SysCall.send 5 (pingRecv 0).data 4 ∉ (readHandler 5 pingRecv 1).calls ∧
    (readHandler 5 pingRecv 1).calls =
      [SysCall.recv 5 1024, SysCall.send 5 response 90, SysCall.close 5] ∧
    response ≠ (pingRecv 0).data := by
  decide

/-- C8 (amended): when the first result of `recv` other than `(-1, EAGAIN)` is a non-empty
payload, the handler passes to `send` the fixed HTTP response with length
`strlen(response)` (90 bytes), whatever bytes were received, then closes the descriptor and
returns; before that it has only called `recv`. -/
theorem handler_sends_fixed_response (fd : Int) (recv : Nat → RecvResult) (k fuel : Nat)
    (hk : k < fuel) (hpre : ∀ j, j < k → (recv j).isAgain) (hpos : 0 < (recv k).ret) :
    readHandler fd recv fuel =
      { calls := List.replicate (k + 1) (SysCall.recv fd 1024) ++
          [SysCall.send fd response (strlen response), SysCall.close fd],
        returned := true } ∧
    strlen response = 90 := by
  refine ⟨?_, by decide⟩
  have hwf : (recv k).wellFormed := by
    unfold RecvResult.wellFormed
    omega
  rw [readHandler_first_final fd recv fuel k hk hpre hwf (not_isAgain_of_pos _ hpos)]
  have hp : (recv k).ret > 0 := hpos
  simp [finalCalls, hp, recvCall, bufferSize]

/-- C8 (amended), evaluated: after one `(-1, EAGAIN)` and then "ping", the handler has made
two `recv` calls, sent the fixed response and closed descriptor 5. -/
theorem handler_sends_fixed_response_witness :
    (1 < 2 ∧ (∀ j, j < 1 → (againThenPing j).isAgain) ∧ 0 < (againThenPing 1).ret) ∧
    readHandler 5 againThenPing 2 =
      { calls := [SysCall.recv 5 1024, SysCall.recv 5 1024,
                  SysCall.send 5 response (strlen response), SysCall.close 5],
        returned := true } :=
  ⟨⟨by decide, by decide, by decide⟩,
   (handler_sends_fixed_response 5 againThenPing 1 2 (by decide) (by decide) (by decide)).1⟩

/-- C9: for every sequence of `recv` results (positive, `0`, or `-1` with some errno), the
handler calls `send` at most once; whenever it has returned it has called `close` exactly
once, as its last call, and running on changes nothing (no further `recv`, `send` or
`close`); while it has not returned it has called neither `send` nor `close`; it sends
(exactly once) if and only if the first result that is not `(-1, EAGAIN)` is positive; and
it returns if and only if some result is not `(-1, EAGAIN)`. -/
theorem read_cycle_once (fd : Int) (recv : Nat → RecvResult)
    (hwf : ∀ i, (recv i).wellFormed) :
    (∀ fuel, sends (readHandler fd recv fuel).calls ≤ 1) ∧
    (∀ fuel, (readHandler fd recv fuel).returned = true →
        closes (readHandler fd recv fuel).calls = 1 ∧
        (readHandler fd recv fuel).calls.getLast? = some (SysCall.close fd) ∧
        ∀ more, readHandler fd recv (fuel + more) = readHandler fd recv fuel) ∧
    (∀ fuel, (readHandler fd recv fuel).returned = false →
        closes (readHandler fd recv fuel).calls = 0 ∧
        sends (readHandler fd recv fuel).calls = 0) ∧
    ((∃ fuel, sends (readHandler fd recv fuel).calls = 1) ↔
        ∃ k, (∀ j, j < k → (recv j).isAgain) ∧ 0 < (recv k).ret) ∧
    ((∃ fuel, (readHandler fd recv fuel).returned = true) ↔ ∃ k, ¬ (recv k).isAgain) := by
  refine ⟨?_, ?_, ?_, ?_, ?_⟩
  · intro fuel
    rcases readHandler_eq fd recv fuel hwf with ⟨_, he⟩ | ⟨k, _, _, _, he⟩
    · rw [he]; simp [sends_recvs]
    · rw [he]
      simp only [sends_append, sends_recvs, sends_finalCalls]
      split <;> omega
  · intro fuel hret
    rcases readHandler_eq fd recv fuel hwf with ⟨_, he⟩ | ⟨k, hk, hpre, hnot, he⟩
    · rw [he] at hret; simp at hret
    · refine ⟨?_, ?_, ?_⟩
      · rw [he]
        simp only [closes_append, closes_recvs, closes_finalCalls]
      · rw [he]
        exact finalCalls_getLast fd (recv k) _
      · intro more
        rw [he]
        exact readHandler_first_final fd recv (fuel + more) k (by omega) hpre (hwf k) hnot
  · intro fuel hret
    rcases readHandler_eq fd recv fuel hwf with ⟨_, he⟩ | ⟨k, _, _, _, he⟩
    · rw [he]; simp [sends_recvs, closes_recvs]
    · rw [he] at hret; simp at hret
  · constructor
    · rintro ⟨fuel, hs⟩
      rcases readHandler_eq fd recv fuel hwf with ⟨_, he⟩ | ⟨k, _, hpre, _, he⟩
      · rw [he] at hs; simp [sends_recvs] at hs
      · rw [he] at hs
        simp only [sends_append, sends_recvs, sends_finalCalls] at hs
        refine ⟨k, hpre, ?_⟩
        by_contra hnp
        have hnp2 : ¬ (recv k).ret > 0 := hnp
        simp [hnp2] at hs
    · rintro ⟨k, hpre, hpos⟩
      refine ⟨k + 1, ?_⟩
      rw [readHandler_first_final fd recv (k + 1) k (Nat.lt_succ_self _) hpre (hwf k)
        (not_isAgain_of_pos _ hpos)]
      have hp : (recv k).ret > 0 := hpos
      simp [sends_append, sends_recvs, sends_finalCalls, hp]
  · constructor
    · rintro ⟨fuel, hret⟩
      rcases readHandler_eq fd recv fuel hwf with ⟨_, he⟩ | ⟨k, _, _, hnot, _⟩
      · rw [he] at hret; simp at hret
      · exact ⟨k, hnot⟩
    · rintro ⟨k, hnot⟩
      refine ⟨k + 1, ?_⟩
      rcases readHandler_eq fd recv (k + 1) hwf with ⟨hall, _⟩ | ⟨_, _, _, _, he⟩
      · exact absurd (hall k (Nat.lt_succ_self _)) hnot
      · rw [he]

theorem againThenPing_wellFormed : ∀ i, (againThenPing i).wellFormed := by
  intro i
  cases i with
  | zero => decide
  | succ n => simp [againThenPing, RecvResult.wellFormed]

/-- C9, evaluated: on the results `(-1, EAGAIN)`, then "ping", the handler returns after two
iterations with one `send` and one `close`, and that `send` count obeys the bound. -/
theorem read_cycle_once_witness :
    (∀ i, (againThenPing i).wellFormed) ∧
    readHandler 5 againThenPing 1 = { calls := [SysCall.recv 5 1024], returned := false } ∧
    (readHandler 5 againThenPing 2).returned = true ∧
    sends (readHandler 5 againThenPing 2).calls = 1 ∧
    closes (readHandler 5 againThenPing 2).calls = 1 ∧
    sends (readHandler 5 againThenPing 7).calls ≤ 1 :=
  ⟨againThenPing_wellFormed, by decide, by decide, by decide, by decide,
   (read_cycle_once 5 againThenPing againThenPing_wellFormed).1 7⟩

end test_accept
